import Mathlib

/-!
Shallow embedding of the IF2 (auxiliary / OIS interface) register file of the
lsm6dsv320x driver (`src/register/if2.rs`).

Each one-byte register is generated by the `bitfield` attribute over `u8`:
the struct stores the raw byte, `from_bits`/`into_bits` wrap and unwrap it,
and per-field getters/setters extract or insert the field's bits at an offset
determined by the declaration order and the global bit order (`Lsb` or `Msb`
build feature).  We model the raw byte as a `Nat` below 256 and the generic
field extraction/insertion as mask-and-shift arithmetic.
-/

/-- Bit order of a bitfield layout, fixed once per build by the
`bit_order_msb` feature: `Lsb` lays declared fields out from bit 0 upward,
`Msb` from bit 7 downward. -/
inductive BitOrder
  | Msb
  | Lsb
  deriving DecidableEq, Repr

/-- Access mode of a bitfield: read-only (`access = RO`, no setter is
generated) or read-write. -/
inductive Access
  | RO
  | RW
  deriving DecidableEq, Repr

/-- Extract the bitfield of width `w` at bit offset `off` from raw byte
`raw`: shift down and mask (the generated field getter). -/
def getBits (raw off w : Nat) : Nat :=
  (raw >>> off) &&& (2 ^ w - 1)

/-- Insert value `v` into the bitfield of width `w` at bit offset `off` of
raw byte `raw`, leaving all other bits unchanged (the generated field
setter over `u8`): clear the field's bits, then or in the shifted value. -/
def setBits (raw off w v : Nat) : Nat :=
  (raw &&& ((2 ^ 8 - 1) ^^^ ((2 ^ w - 1) <<< off))) ||| ((v &&& (2 ^ w - 1)) <<< off)

/-- Register addresses of the IF2 (auxiliary) interface, as enumerated in
`If2Reg` of `src/register/if2.rs`. -/
inductive If2Reg
  | WhoAmI
  | StatusRegOis
  | OutTempL
  | OutTempH
  | OutxLGOis
  | OutxHGOis
  | OutyLGOis
  | OutyHGOis
  | OutzLGOis
  | OutzHGOis
  | OutxLAOis
  | OutxHAOis
  | OutyLAOis
  | OutyHAOis
  | OutzLAOis
  | OutzHAOis
  | HandshakeCtrl
  | IntOis
  | Ctrl1Ois
  | Ctrl2Ois
  | Ctrl3Ois
  deriving DecidableEq, Repr

/-- Numeric value of each IF2 register address (the repr(u8) discriminants). -/
def If2Reg.addr : If2Reg → Nat
  | .WhoAmI => 0x0F
  | .StatusRegOis => 0x1E
  | .OutTempL => 0x20
  | .OutTempH => 0x21
  | .OutxLGOis => 0x22
  | .OutxHGOis => 0x23
  | .OutyLGOis => 0x24
  | .OutyHGOis => 0x25
  | .OutzLGOis => 0x26
  | .OutzHGOis => 0x27
  | .OutxLAOis => 0x28
  | .OutxHAOis => 0x29
  | .OutyLAOis => 0x2A
  | .OutyHAOis => 0x2B
  | .OutzLAOis => 0x2C
  | .OutzHAOis => 0x2D
  | .HandshakeCtrl => 0x6E
  | .IntOis => 0x6F
  | .Ctrl1Ois => 0x70
  | .Ctrl2Ois => 0x71
  | .Ctrl3Ois => 0x72

/-- Static description of one declared bitfield: its bit width and whether
the attribute marks it read-only (`access = RO`) or leaves it read-write. -/
structure FieldSpec where
  width : Nat
  access : Access
  deriving DecidableEq, Repr

/-- Bit offset of the field at declaration index `i`: an `Lsb` build packs
declared fields from bit 0 upward, an `Msb` build from bit 7 downward. -/
def fieldOffset (fields : List FieldSpec) (i : Nat) (o : BitOrder) : Nat :=
  let before := ((fields.take i).map FieldSpec.width).sum
  match o with
  | .Lsb => before
  | .Msb => 8 - before - ((fields[i]?.map FieldSpec.width).getD 0)

/-- IF2_WHO_AM_I (0x0F): the struct generated by the bitfield attribute
stores the raw byte. -/
structure If2WhoAmI where
  bits : Nat
  deriving DecidableEq, Repr

/-- Declared fields of IF2_WHO_AM_I: one 8-bit read-write field `id`
(declared with `default = 0x73`, which only seeds the constructor). -/
def If2WhoAmI.fields : List FieldSpec := [⟨8, .RW⟩]

def If2WhoAmI.from_bits (b : Nat) : If2WhoAmI := ⟨b % 256⟩

def If2WhoAmI.into_bits (r : If2WhoAmI) : Nat := r.bits

/-- Constructor seeded with the declared field defaults (`id = 0x73`). -/
def If2WhoAmI.new : If2WhoAmI := ⟨0x73⟩

def If2WhoAmI.id (o : BitOrder) (r : If2WhoAmI) : Nat :=
  getBits r.bits (fieldOffset If2WhoAmI.fields 0 o) 8

def If2WhoAmI.with_id (o : BitOrder) (r : If2WhoAmI) (v : Nat) : If2WhoAmI :=
  ⟨setBits r.bits (fieldOffset If2WhoAmI.fields 0 o) 8 v⟩

/-- IF2_STATUS_REG_OIS (0x1E). -/
structure If2StatusRegOis where
  bits : Nat
  deriving DecidableEq, Repr

/-- Declared fields: xlda(1), gda(1), gyro_settling(1), not_used0(5, RO). -/
def If2StatusRegOis.fields : List FieldSpec :=
  [⟨1, .RW⟩, ⟨1, .RW⟩, ⟨1, .RW⟩, ⟨5, .RO⟩]

def If2StatusRegOis.from_bits (b : Nat) : If2StatusRegOis := ⟨b % 256⟩

def If2StatusRegOis.into_bits (r : If2StatusRegOis) : Nat := r.bits

/-- IF2_OUT_TEMP_L (0x20). -/
structure If2OutTempL where
  bits : Nat
  deriving DecidableEq, Repr

/-- Declared fields: temp(8). -/
def If2OutTempL.fields : List FieldSpec := [⟨8, .RW⟩]

def If2OutTempL.from_bits (b : Nat) : If2OutTempL := ⟨b % 256⟩

def If2OutTempL.into_bits (r : If2OutTempL) : Nat := r.bits

/-- IF2_OUT_TEMP_H (0x21). -/
structure If2OutTempH where
  bits : Nat
  deriving DecidableEq, Repr

/-- Declared fields: temp(8). -/
def If2OutTempH.fields : List FieldSpec := [⟨8, .RW⟩]

def If2OutTempH.from_bits (b : Nat) : If2OutTempH := ⟨b % 256⟩

def If2OutTempH.into_bits (r : If2OutTempH) : Nat := r.bits

/-- IF2_HANDSHAKE_CTRL (0x6E). -/
structure If2HandshakeCtrl where
  bits : Nat
  deriving DecidableEq, Repr

/-- Declared fields: if2_shared_ack(1), if2_shared_req(1), not_used0(6, RO). -/
def If2HandshakeCtrl.fields : List FieldSpec :=
  [⟨1, .RW⟩, ⟨1, .RW⟩, ⟨6, .RO⟩]

def If2HandshakeCtrl.from_bits (b : Nat) : If2HandshakeCtrl := ⟨b % 256⟩

def If2HandshakeCtrl.into_bits (r : If2HandshakeCtrl) : Nat := r.bits

def If2HandshakeCtrl.if2_shared_ack (o : BitOrder) (r : If2HandshakeCtrl) : Nat :=
  getBits r.bits (fieldOffset If2HandshakeCtrl.fields 0 o) 1

def If2HandshakeCtrl.if2_shared_req (o : BitOrder) (r : If2HandshakeCtrl) : Nat :=
  getBits r.bits (fieldOffset If2HandshakeCtrl.fields 1 o) 1

def If2HandshakeCtrl.with_if2_shared_req (o : BitOrder) (r : If2HandshakeCtrl)
    (v : Nat) : If2HandshakeCtrl :=
  ⟨setBits r.bits (fieldOffset If2HandshakeCtrl.fields 1 o) 1 v⟩

/-- IF2_INT_OIS (0x6F). -/
structure If2IntOis where
  bits : Nat
  deriving DecidableEq, Repr

/-- Declared fields: st_xl_ois(2), st_g_ois(2), st_ois_clampdis(1),
not_used0(1, RO), drdy_mask_ois(1), int2_drdy_ois(1). -/
def If2IntOis.fields : List FieldSpec :=
  [⟨2, .RW⟩, ⟨2, .RW⟩, ⟨1, .RW⟩, ⟨1, .RO⟩, ⟨1, .RW⟩, ⟨1, .RW⟩]

def If2IntOis.from_bits (b : Nat) : If2IntOis := ⟨b % 256⟩

def If2IntOis.into_bits (r : If2IntOis) : Nat := r.bits

/-- IF2_CTRL1_OIS (0x70). -/
structure If2Ctrl1Ois where
  bits : Nat
  deriving DecidableEq, Repr

/-- Declared fields: if2_spi_read_en(1), ois_g_en(1), ois_xl_en(1),
not_used0(2, RO), sim_ois(1), not_used1(2, RO). -/
def If2Ctrl1Ois.fields : List FieldSpec :=
  [⟨1, .RW⟩, ⟨1, .RW⟩, ⟨1, .RW⟩, ⟨2, .RO⟩, ⟨1, .RW⟩, ⟨2, .RO⟩]

def If2Ctrl1Ois.from_bits (b : Nat) : If2Ctrl1Ois := ⟨b % 256⟩

def If2Ctrl1Ois.into_bits (r : If2Ctrl1Ois) : Nat := r.bits

/-- IF2_CTRL2_OIS (0x71). -/
structure If2Ctrl2Ois where
  bits : Nat
  deriving DecidableEq, Repr

/-- Declared fields: fs_g_ois(3), lpf1_g_ois_bw(2), not_used0(3, RO). -/
def If2Ctrl2Ois.fields : List FieldSpec :=
  [⟨3, .RW⟩, ⟨2, .RW⟩, ⟨3, .RO⟩]

def If2Ctrl2Ois.from_bits (b : Nat) : If2Ctrl2Ois := ⟨b % 256⟩

def If2Ctrl2Ois.into_bits (r : If2Ctrl2Ois) : Nat := r.bits

def If2Ctrl2Ois.fs_g_ois (o : BitOrder) (r : If2Ctrl2Ois) : Nat :=
  getBits r.bits (fieldOffset If2Ctrl2Ois.fields 0 o) 3

/-- IF2_CTRL3_OIS (0x72). -/
structure If2Ctrl3Ois where
  bits : Nat
  deriving DecidableEq, Repr

/-- Declared fields: fs_xl_ois(2), not_used0(1, RO), lpf_xl_ois_bw(3),
not_used1(2, RO). -/
def If2Ctrl3Ois.fields : List FieldSpec :=
  [⟨2, .RW⟩, ⟨1, .RO⟩, ⟨3, .RW⟩, ⟨2, .RO⟩]

def If2Ctrl3Ois.from_bits (b : Nat) : If2Ctrl3Ois := ⟨b % 256⟩

def If2Ctrl3Ois.into_bits (r : If2Ctrl3Ois) : Nat := r.bits

/-- The schema table of all one-byte IF2 registers: address and declared
field list of each bitfield struct in `src/register/if2.rs`. -/
def if2Schemas : List (Nat × List FieldSpec) :=
  [(If2Reg.addr .WhoAmI, If2WhoAmI.fields),
   (If2Reg.addr .StatusRegOis, If2StatusRegOis.fields),
   (If2Reg.addr .OutTempL, If2OutTempL.fields),
   (If2Reg.addr .OutTempH, If2OutTempH.fields),
   (If2Reg.addr .HandshakeCtrl, If2HandshakeCtrl.fields),
   (If2Reg.addr .IntOis, If2IntOis.fields),
   (If2Reg.addr .Ctrl1Ois, If2Ctrl1Ois.fields),
   (If2Reg.addr .Ctrl2Ois, If2Ctrl2Ois.fields),
   (If2Reg.addr .Ctrl3Ois, If2Ctrl3Ois.fields)]

/-- IF2_OUTX_L_G_OIS burst base address, exactly as declared in the source:
the gyroscope OIS output burst is registered at `If2Reg::OutxLGOis`. -/
def If2OutXYZGOIS.address : Nat := If2Reg.addr .OutxLGOis

/-- IF2 accelerometer OIS output burst base address, exactly as declared in
the source: the attribute on `If2OutXYZAOIS` names `If2Reg::OutxLGOis`. -/
def If2OutXYZAOIS.address : Nat := If2Reg.addr .OutxLGOis

/-- Modelled from the spec: the driver's typed error kinds (§7); the error
enumeration itself lives outside `src/`. -/
inductive DriverError
  | FieldValueOutOfRange
  | ReservedFieldCode
  | ArbitrationTimeout
  | UnexpectedHardwareState
  deriving DecidableEq, Repr

/-- Modelled from the spec: named variants of the 3-bit gyroscope OIS
full-scale selector (codes 1–4 map to ±250/±500/±1000/±2000 dps); the
enum declaration is not under `src/`. -/
inductive GyFullScaleOis
  | Fs250dps
  | Fs500dps
  | Fs1000dps
  | Fs2000dps
  deriving DecidableEq, Repr

/-- Modelled from the spec: the explicit, total decode table of the
`fs_g_ois` field of IF2_CTRL2_OIS; codes with no defined meaning (0 and
5–7) are reserved and surface `ReservedFieldCode`. -/
def decodeFsGOis (code : Nat) : Except DriverError GyFullScaleOis :=
  if code = 1 then .ok .Fs250dps
  else if code = 2 then .ok .Fs500dps
  else if code = 3 then .ok .Fs1000dps
  else if code = 4 then .ok .Fs2000dps
  else .error .ReservedFieldCode

/-- Modelled from the spec: the checked field encoder, which fails fast
with `FieldValueOutOfRange` when a caller-supplied value is wider than the
field's declared width instead of wrapping silently; the generated setter
code is not under `src/`. -/
def setBitsChecked (raw off w v : Nat) : Except DriverError Nat :=
  if v < 2 ^ w then .ok (setBits raw off w v) else .error .FieldValueOutOfRange

/-- Checked encode into the 3-bit `fs_g_ois` field of IF2_CTRL2_OIS. -/
def If2Ctrl2Ois.set_fs_g_ois_checked (o : BitOrder) (r : If2Ctrl2Ois)
    (v : Nat) : Except DriverError If2Ctrl2Ois :=
  (setBitsChecked r.bits (fieldOffset If2Ctrl2Ois.fields 0 o) 3 v).map (⟨·⟩)

/-- Checked encode into the 2-bit `fs_xl_ois` field of IF2_CTRL3_OIS. -/
def If2Ctrl3Ois.set_fs_xl_ois_checked (o : BitOrder) (r : If2Ctrl3Ois)
    (v : Nat) : Except DriverError If2Ctrl3Ois :=
  (setBitsChecked r.bits (fieldOffset If2Ctrl3Ois.fields 0 o) 2 v).map (⟨·⟩)

/-- Little-endian two-byte two's-complement interpretation: low byte plus
256 times high byte, reinterpreted as a signed 16-bit value. -/
def toI16 (lo hi : Nat) : Int :=
  let u := (lo % 256) + 256 * (hi % 256)
  if u < 32768 then (u : Int) else (u : Int) - 65536

/-- IF2_OUTX_L_G_OIS..IF2_OUTZ_H_G_OIS decoded burst: the `i16` axis
triplet of the source struct. -/
structure If2OutXYZGOIS where
  x : Int
  y : Int
  z : Int
  deriving DecidableEq, Repr

/-- Modelled from the spec: the burst sample decoder (§4.2). The generated
read code for the named burst register is not under `src/`; per the spec it
assembles each axis from its two consecutive bytes of the single 6-byte
payload, little-endian two's complement. -/
def If2OutXYZGOIS.from_le_bytes (b : List Nat) : Option If2OutXYZGOIS :=
  match b with
  | [b0, b1, b2, b3, b4, b5] => some ⟨toI16 b0 b1, toI16 b2 b3, toI16 b4 b5⟩
  | _ => none

/-- Modelled from the spec: bounded polling of the `shared_ack` bit (§4.3).
`ackAt t` is the value the simulated transport reports on the t-th poll;
the poll budget is consumed one observation per step. -/
def pollForAck (ackAt : Nat → Bool) : Nat → Nat → Bool
  | 0, _ => false
  | fuel + 1, t => if ackAt t then true else pollForAck ackAt fuel (t + 1)

/-- Modelled from the spec: the arbitration request operation (§4.3). The
requester sets `if2_shared_req = 1` in the handshake register, then polls
`shared_ack` up to `budget` times; on success it returns with the request
latched, on timeout it clears `if2_shared_req` before returning
`ArbitrationTimeout`. The second component is the handshake register a
subsequent read observes. -/
def requestSharedAccess (o : BitOrder) (budget : Nat) (ackAt : Nat → Bool)
    (r : If2HandshakeCtrl) : Except DriverError Unit × If2HandshakeCtrl :=
  let requested := r.with_if2_shared_req o 1
  if pollForAck ackAt budget 0 then (.ok (), requested)
  else (.error .ArbitrationTimeout, requested.with_if2_shared_req o 0)

/-- Modelled from the spec: a transport failure surfaced by the bus write
primitive (§7); opaque to the core. -/
inductive BusError
  | Bus
  deriving DecidableEq, Repr

/-- Modelled from the spec: one operation of a configuration program (§3):
a register write or a settling delay. -/
inductive ConfigOperation
  | writeRegister (address value : Nat)
  | delay (duration : Nat)
  deriving DecidableEq, Repr

/-- Modelled from the spec: the loader's failure report, carrying the index
of the operation the transport rejected and the underlying bus error. -/
inductive ApplyError
  | FailedAtIndex (i : Nat) (e : BusError)
  deriving DecidableEq, Repr

/-- Modelled from the spec: the configuration program loader (§4.4),
issuing operations strictly in order starting at index `k`. `resp j` is
the transport's response to the operation at index `j` (`none` means it
was performed). Returns the indices of operations the transport performed,
in issue order, together with the overall result; the loader stops at the
first failure. -/
def applyFrom (resp : Nat → Option BusError) :
    Nat → List ConfigOperation → List Nat × Except ApplyError Unit
  | _, [] => ([], .ok ())
  | k, _ :: rest =>
    match resp k with
    | some e => ([], .error (.FailedAtIndex k e))
    | none =>
      let r := applyFrom resp (k + 1) rest
      (k :: r.1, r.2)

/-- Modelled from the spec: `apply(program)` of the configuration program
loader, starting at operation index 0. -/
def apply (resp : Nat → Option BusError) (program : List ConfigOperation) :
    List Nat × Except ApplyError Unit :=
  applyFrom resp 0 program

/-- Modelled from the spec: the device's observable register state, a map
from register address to byte value (§8, property 7). -/
def DeviceState : Type := Nat → Nat

/-- Modelled from the spec: effect of one configuration operation on the
modeled register state: a write stores its value at its address, a delay
changes nothing. -/
def stepOp (s : DeviceState) : ConfigOperation → DeviceState
  | .writeRegister a v => fun a' => if a' = a then v else s a'
  | .delay _ => s

/-- Modelled from the spec: the register state after applying a whole
configuration program, operations taken in the given order. -/
def runProgram : List ConfigOperation → DeviceState → DeviceState
  | [], s => s
  | op :: rest, s => runProgram rest (stepOp s op)

/-- Value of the last write a program performs at address `a`, if any. -/
def lastWrite : List ConfigOperation → Nat → Option Nat
  | [], _ => none
  | .writeRegister b v :: rest, a =>
    match lastWrite rest a with
    | some w => some w
    | none => if a = b then some v else none
  | .delay _ :: rest, a => lastWrite rest a

/-!
Supporting lemmas about the generic field codec and the modelled
components, followed by one theorem per verified claim.
-/

theorem testBit_255 (j : Nat) : Nat.testBit 255 j = decide (j < 8) := by
  have h : (255 : Nat) = 2 ^ 8 - 1 := by norm_num
  rw [h, Nat.testBit_two_pow_sub_one]

theorem testBit_false_of_lt {x j n : Nat} (hx : x < 2 ^ n) (hn : n ≤ j) :
    x.testBit j = false :=
  Nat.testBit_lt_two_pow (lt_of_lt_of_le hx (Nat.pow_le_pow_right (by norm_num) hn))

theorem testBit_setBits_outside (raw off w v j : Nat) (hw : off + w ≤ 8)
    (hraw : raw < 256) (hj : j < off ∨ off + w ≤ j) :
    (setBits raw off w v).testBit j = raw.testBit j := by
  unfold setBits
  rcases hj with hj | hj
  · have hj8 : j < 8 := by omega
    have hge : ¬ off ≤ j := by omega
    simp [Nat.testBit_or, Nat.testBit_and, Nat.testBit_xor, Nat.testBit_shiftLeft,
      Nat.testBit_two_pow_sub_one, testBit_255, hge, hj8]
  · by_cases hj8 : j < 8
    · have hge : off ≤ j := by omega
      have hjw : ¬ j - off < w := by omega
      simp [Nat.testBit_or, Nat.testBit_and, Nat.testBit_xor, Nat.testBit_shiftLeft,
        Nat.testBit_two_pow_sub_one, testBit_255, hge, hjw, hj8]
    · have hrj : raw.testBit j = false := by
        have h256 : raw < 2 ^ 8 := by omega
        exact testBit_false_of_lt h256 (by omega)
      have hjw : ¬ j - off < w := by omega
      have hge : off ≤ j := by omega
      simp [Nat.testBit_or, Nat.testBit_and, Nat.testBit_xor, Nat.testBit_shiftLeft,
        Nat.testBit_two_pow_sub_one, testBit_255, hge, hjw, hj8, hrj]

theorem getBits_setBits_self (raw off w v : Nat) (hw : off + w ≤ 8)
    (hv : v < 2 ^ w) :
    getBits (setBits raw off w v) off w = v := by
  apply Nat.eq_of_testBit_eq
  intro j
  by_cases hjw : j < w
  · have h8 : off + j < 8 := by omega
    have hco : off + j - off = j := by omega
    simp [getBits, setBits, Nat.testBit_and, Nat.testBit_or, Nat.testBit_xor,
      Nat.testBit_shiftLeft, Nat.testBit_shiftRight, Nat.testBit_two_pow_sub_one,
      testBit_255, hjw, h8, hco]
  · have hvj : v.testBit j = false := testBit_false_of_lt hv (by omega)
    simp [getBits, Nat.testBit_and, Nat.testBit_shiftRight,
      Nat.testBit_two_pow_sub_one, hjw, hvj]

theorem setBits_full_byte (raw v : Nat) : setBits raw 0 8 v = v % 256 := by
  have h : v &&& 255 = v % 256 := by
    have h2 := Nat.and_pow_two_sub_one_eq_mod v 8
    norm_num at h2
    exact h2
  unfold setBits
  simp [h]

theorem pollForAck_never (ackAt : Nat → Bool) (hack : ∀ t, ackAt t = false) :
    ∀ fuel t, pollForAck ackAt fuel t = false := by
  intro fuel
  induction fuel with
  | zero => intro t; rfl
  | succ n ih => intro t; simp [pollForAck, hack t, ih (t + 1)]

theorem applyFrom_fail (resp : Nat → Option BusError) (e : BusError) :
    ∀ (program : List ConfigOperation) (k i : Nat), i < program.length →
      (∀ j, j < i → resp (k + j) = none) → resp (k + i) = some e →
      applyFrom resp k program =
        ((List.range i).map (k + ·), .error (.FailedAtIndex (k + i) e)) := by
  intro program
  induction program with
  | nil => intro k i hi; simp at hi
  | cons op rest ih =>
    intro k i hi hok hfail
    cases i with
    | zero =>
      have h0 : resp k = some e := by simpa using hfail
      simp [applyFrom, h0]
    | succ n =>
      have h0 : resp k = none := by simpa using hok 0 (Nat.succ_pos n)
      have hok' : ∀ j, j < n → resp (k + 1 + j) = none := by
        intro j hj
        have h := hok (j + 1) (by omega)
        have harith : k + (j + 1) = k + 1 + j := by omega
        rwa [harith] at h
      have hfail' : resp (k + 1 + n) = some e := by
        have harith : k + 1 + n = k + (n + 1) := by omega
        rw [harith]
        exact hfail
      have hrest := ih (k + 1) n (by simpa using hi) hok' hfail'
      have hlist : k :: (List.range n).map (k + 1 + ·) =
          (List.range (n + 1)).map (k + ·) := by
        rw [List.range_succ_eq_map, List.map_cons, List.map_map]
        refine congrArg₂ List.cons (by omega) (List.map_congr_left ?_)
        intro a _
        simp [Function.comp]
        omega
      have harith2 : k + 1 + n = k + (n + 1) := by omega
      simp [applyFrom, h0, hrest, hlist, harith2]

theorem runProgram_lastWrite (program : List ConfigOperation) :
    ∀ (s : DeviceState) (a : Nat),
      runProgram program s a = (lastWrite program a).getD (s a) := by
  induction program with
  | nil => intro s a; rfl
  | cons op rest ih =>
    intro s a
    cases op with
    | writeRegister b v =>
      show runProgram rest (stepOp s (.writeRegister b v)) a = _
      rw [ih]
      cases hlw : lastWrite rest a with
      | some w => simp [lastWrite, hlw]
      | none =>
        by_cases hab : a = b
        · subst hab
          simp [lastWrite, hlw, stepOp]
        · simp [lastWrite, hlw, stepOp, hab]
    | delay d =>
      show runProgram rest (stepOp s (.delay d)) a = _
      rw [ih]
      simp [lastWrite, stepOp]

theorem take_width_sum_le :
    ∀ (fields : List FieldSpec) (i : Nat) (f : FieldSpec), fields[i]? = some f →
      ((fields.take i).map FieldSpec.width).sum + f.width ≤
        (fields.map FieldSpec.width).sum := by
  intro fields
  induction fields with
  | nil => intro i f h; simp at h
  | cons g rest ih =>
    intro i f h
    cases i with
    | zero =>
      have hg : g = f := by simpa using h
      subst hg
      simp
    | succ n =>
      have h' : rest[n]? = some f := by simpa using h
      have hih := ih n f h'
      simp only [List.take_succ_cons, List.map_cons, List.sum_cons]
      omega

theorem fieldOffset_add_width_le (fields : List FieldSpec) (i : Nat)
    (f : FieldSpec) (o : BitOrder) (hf : fields[i]? = some f)
    (hsum : (fields.map FieldSpec.width).sum = 8) :
    fieldOffset fields i o + f.width ≤ 8 := by
  have h := take_width_sum_le fields i f hf
  cases o with
  | Lsb =>
    simp only [fieldOffset]
    omega
  | Msb =>
    have hw : (fields[i]?.map FieldSpec.width).getD 0 = f.width := by
      rw [hf]
      rfl
    simp only [fieldOffset, hw]
    omega

/-- C1: the claim that encoding `If2WhoAmI` with any caller-supplied `id`
value yields raw byte 0x73 is false on the code: `id` is a read-write
8-bit field whose `default = 0x73` only seeds the constructor, so the
setter stores the caller's value unmasked.  At `v = 0` (Lsb build) the
encoded byte is 0x00, not 0x73. -/
theorem c1_whoami_mask_counterexample :
    ¬ (∀ (o : BitOrder) (v : Nat), v < 256 →
        (If2WhoAmI.new.with_id o v).into_bits = 0x73 ∧
        (If2WhoAmI.from_bits 0x73).id o = 0x73) := by
  intro h
  have h0 := (h .Lsb 0 (by norm_num)).1
  have hz : (If2WhoAmI.new.with_id .Lsb 0).into_bits = 0 := by decide
  omega

/-- C1 (amended): for both bit orders, decoding the identification
register's fixed raw byte 0x73 yields id = 0x73 and the default-seeded
constructor encodes to 0x73; but encoding a caller-supplied id value `v`
produces `v` itself, because `id` is a read-write field spanning the whole
byte and is never masked back to its default. -/
theorem c1_whoami_amended (o : BitOrder) (v b : Nat) (hv : v < 256) :
    (If2WhoAmI.from_bits 0x73).id o = 0x73 ∧
    If2WhoAmI.new.into_bits = 0x73 ∧
    ((If2WhoAmI.from_bits b).with_id o v).into_bits = v := by
  refine ⟨?_, rfl, ?_⟩
  · cases o <;> decide
  · show setBits (b % 256) (fieldOffset If2WhoAmI.fields 0 o) 8 v = v
    have ho : fieldOffset If2WhoAmI.fields 0 o = 0 := by cases o <;> rfl
    rw [ho, setBits_full_byte, Nat.mod_eq_of_lt hv]

/-- C1 witness: the amended claim at order Msb, v = 0x25, b = 0. -/
theorem c1_whoami_amended_witness :
    (0x25 : Nat) < 256 ∧
    ((If2WhoAmI.from_bits 0).with_id .Msb 0x25).into_bits = 0x25 :=
  ⟨by norm_num, (c1_whoami_amended .Msb 0x25 0 (by norm_num)).2.2⟩

/-- C2: for every one-byte IF2 register struct and every raw byte `b`,
`into_bits (from_bits b) = b` exactly: each generated struct stores the
raw byte, so the decode/encode round trip is the identity — in particular
it is the identity modulo reserved-bit normalization, as claimed. -/
theorem c2_roundtrip_exact (b : Nat) (hb : b < 256) :
    (If2WhoAmI.from_bits b).into_bits = b ∧
    (If2StatusRegOis.from_bits b).into_bits = b ∧
    (If2OutTempL.from_bits b).into_bits = b ∧
    (If2OutTempH.from_bits b).into_bits = b ∧
    (If2HandshakeCtrl.from_bits b).into_bits = b ∧
    (If2IntOis.from_bits b).into_bits = b ∧
    (If2Ctrl1Ois.from_bits b).into_bits = b ∧
    (If2Ctrl2Ois.from_bits b).into_bits = b ∧
    (If2Ctrl3Ois.from_bits b).into_bits = b := by
  have h : b % 256 = b := Nat.mod_eq_of_lt hb
  exact ⟨h, h, h, h, h, h, h, h, h⟩

/-- C2 witness: the round trip at raw byte 0x5A on IF2_CTRL2_OIS. -/
theorem c2_roundtrip_witness :
    (0x5A : Nat) < 256 ∧ (If2Ctrl2Ois.from_bits 0x5A).into_bits = 0x5A :=
  ⟨by norm_num, (c2_roundtrip_exact 0x5A (by norm_num)).2.2.2.2.2.2.2.1⟩

/-- C3: the accelerometer OIS burst register is declared at the gyroscope
burst base address: `If2OutXYZAOIS.address` evaluates to 0x22
(`If2Reg::OutxLGOis`), identical to `If2OutXYZGOIS.address` and distinct
from the 0x28 (`If2Reg::OutxLAOis`) that its own doc comment and the
hardware contract assign to IF2_OUTX_L_A_OIS. -/
theorem c3_aois_address_bug :
    If2OutXYZAOIS.address = 0x22 ∧
    If2OutXYZAOIS.address ≠ 0x28 ∧
    If2OutXYZAOIS.address = If2OutXYZGOIS.address ∧
    If2Reg.addr .OutxLAOis = 0x28 :=
  ⟨rfl, by decide, rfl, rfl⟩

/-- C4: decoding the single 6-byte payload FF FF 00 80 FF 7F as a burst
sample yields x = −1, y = −32768, z = 32767, each axis the little-endian
two's-complement reading of its two consecutive bytes. -/
theorem c4_burst_decode :
    If2OutXYZGOIS.from_le_bytes [0xFF, 0xFF, 0x00, 0x80, 0xFF, 0x7F] =
      some ⟨-1, -32768, 32767⟩ := by
  decide

/-- C5: decoding fs_g_ois codes 1, 2, 3, 4 yields the ±250, ±500, ±1000,
±2000 dps variants respectively, and decoding code 0 or any code ≥ 5
surfaces `ReservedFieldCode`, never a silently chosen default. -/
theorem c5_fs_g_ois_decode :
    decodeFsGOis 1 = .ok .Fs250dps ∧
    decodeFsGOis 2 = .ok .Fs500dps ∧
    decodeFsGOis 3 = .ok .Fs1000dps ∧
    decodeFsGOis 4 = .ok .Fs2000dps ∧
    ∀ code : Nat, code = 0 ∨ 5 ≤ code →
      decodeFsGOis code = .error .ReservedFieldCode := by
  refine ⟨rfl, rfl, rfl, rfl, ?_⟩
  intro code hc
  have h1 : code ≠ 1 := by omega
  have h2 : code ≠ 2 := by omega
  have h3 : code ≠ 3 := by omega
  have h4 : code ≠ 4 := by omega
  simp [decodeFsGOis, h1, h2, h3, h4]

/-- C5 witness: the reserved codes 0 and 5 decode to the error. -/
theorem c5_fs_g_ois_witness :
    decodeFsGOis 0 = .error .ReservedFieldCode ∧
    decodeFsGOis 5 = .error .ReservedFieldCode :=
  ⟨c5_fs_g_ois_decode.2.2.2.2 0 (Or.inl rfl),
   c5_fs_g_ois_decode.2.2.2.2 5 (Or.inr (by norm_num))⟩

/-- C6: when `shared_ack` is never observed set, the arbitration request
terminates with `ArbitrationTimeout` within the bounded poll budget and
clears `if2_shared_req`, so the returned handshake register reads the
request bit as 0. -/
theorem c6_arbitration_timeout (o : BitOrder) (budget : Nat)
    (ackAt : Nat → Bool) (r : If2HandshakeCtrl)
    (hack : ∀ t, ackAt t = false) :
    (requestSharedAccess o budget ackAt r).1 = .error .ArbitrationTimeout ∧
    ((requestSharedAccess o budget ackAt r).2).if2_shared_req o = 0 := by
  have hpoll := pollForAck_never ackAt hack budget 0
  constructor
  · simp [requestSharedAccess, hpoll]
  · have hred : (requestSharedAccess o budget ackAt r).2 =
        (r.with_if2_shared_req o 1).with_if2_shared_req o 0 := by
      simp [requestSharedAccess, hpoll]
    rw [hred]
    show getBits (setBits ((r.with_if2_shared_req o 1).bits)
        (fieldOffset If2HandshakeCtrl.fields 1 o) 1 0)
        (fieldOffset If2HandshakeCtrl.fields 1 o) 1 = 0
    exact getBits_setBits_self _ _ _ _ (by cases o <;> decide) (by decide)

/-- C6 witness: a 3-poll budget against a transport that never acks, from
a zeroed handshake register (Lsb build). -/
theorem c6_arbitration_timeout_witness :
    (requestSharedAccess .Lsb 3 (fun _ => false)
        (If2HandshakeCtrl.from_bits 0)).1 = .error .ArbitrationTimeout ∧
    ((requestSharedAccess .Lsb 3 (fun _ => false)
        (If2HandshakeCtrl.from_bits 0)).2).if2_shared_req .Lsb = 0 :=
  c6_arbitration_timeout .Lsb 3 (fun _ => false)
    (If2HandshakeCtrl.from_bits 0) (fun _ => rfl)

/-- C7: for a transport whose first failure is at operation index `i`, the
loader performs exactly operations 0..i-1, in the program's order, and
returns `FailedAtIndex i` with the underlying bus error; no operation with
index ≥ i is performed. -/
theorem c7_loader_fail_fast (program : List ConfigOperation)
    (resp : Nat → Option BusError) (i : Nat) (e : BusError)
    (hi : i < program.length) (hok : ∀ j, j < i → resp j = none)
    (hfail : resp i = some e) :
    apply resp program = (List.range i, .error (.FailedAtIndex i e)) ∧
    (∀ j, j ∈ (apply resp program).1 ↔ j < i) := by
  have h := applyFrom_fail resp e program 0 i hi
    (by intro j hj; simpa using hok j hj) (by simpa using hfail)
  have happ : apply resp program = (List.range i, .error (.FailedAtIndex i e)) := by
    rw [apply, h]
    simp
  refine ⟨happ, ?_⟩
  intro j
  rw [happ]
  simp [List.mem_range]

/-- C7 witness: a 5-operation program against a transport that rejects
operation index 3: operations 0–2 are performed, the loader reports
FailedAtIndex 3, and operations 3 and 4 are not performed. -/
theorem c7_loader_fail_fast_witness :
    apply (fun j => if j = 3 then some .Bus else none)
        [ConfigOperation.writeRegister 0x70 0x02,
         ConfigOperation.writeRegister 0x71 0x01,
         ConfigOperation.delay 10,
         ConfigOperation.writeRegister 0x72 0x00,
         ConfigOperation.writeRegister 0x6F 0x20] =
      (List.range 3, .error (.FailedAtIndex 3 .Bus)) :=
  (c7_loader_fail_fast _ _ 3 BusError.Bus (by decide)
    (fun j hj => by
      have hne : j ≠ 3 := by omega
      simp [hne])
    (by simp)).1

/-- C8: applying a configuration program twice in succession leaves the
modeled device register state identical to applying it once; modeled
programs consist only of register writes and delays, so no
self-clearing-on-read field is touched. -/
theorem c8_apply_idempotent (program : List ConfigOperation)
    (s : DeviceState) :
    runProgram program (runProgram program s) = runProgram program s := by
  funext a
  rw [runProgram_lastWrite program (runProgram program s) a,
    runProgram_lastWrite program s a]
  cases hlw : lastWrite program a with
  | some v => simp
  | none => simp

/-- C9: encoding a value at least 2^w into a ReadWrite field of declared
width w fails fast with `FieldValueOutOfRange` instead of wrapping: shown
for the 3-bit fs_g_ois field of IF2_CTRL2_OIS and the 2-bit fs_xl_ois
field of IF2_CTRL3_OIS, in both bit orders. -/
theorem c9_field_value_out_of_range (o : BitOrder) (r2 : If2Ctrl2Ois)
    (r3 : If2Ctrl3Ois) (v2 v3 : Nat) (h2 : 2 ^ 3 ≤ v2) (h3 : 2 ^ 2 ≤ v3) :
    r2.set_fs_g_ois_checked o v2 = .error .FieldValueOutOfRange ∧
    r3.set_fs_xl_ois_checked o v3 = .error .FieldValueOutOfRange := by
  constructor
  · have hlt : ¬ v2 < 8 := by omega
    simp [If2Ctrl2Ois.set_fs_g_ois_checked, setBitsChecked, Except.map, hlt]
  · have hlt : ¬ v3 < 4 := by omega
    simp [If2Ctrl3Ois.set_fs_xl_ois_checked, setBitsChecked, Except.map, hlt]

/-- C9 witness: v = 8 into the 3-bit field and v = 4 into the 2-bit field
(Lsb build, zeroed registers). -/
theorem c9_field_value_out_of_range_witness :
    (If2Ctrl2Ois.from_bits 0).set_fs_g_ois_checked .Lsb 8 =
      .error .FieldValueOutOfRange ∧
    (If2Ctrl3Ois.from_bits 0).set_fs_xl_ois_checked .Lsb 4 =
      .error .FieldValueOutOfRange :=
  c9_field_value_out_of_range .Lsb (If2Ctrl2Ois.from_bits 0)
    (If2Ctrl3Ois.from_bits 0) 8 4 (by norm_num) (by norm_num)

/-- C10: for every register schema in the IF2 table, every declared
ReadWrite field, either bit order, any starting byte, and any in-range
value, the generated setter changes only the field's declared bit
positions: every other bit of the byte — the reserved read-only bits
included — tests identically before and after. -/
theorem c10_setter_frame (addr : Nat) (fields : List FieldSpec)
    (hmem : (addr, fields) ∈ if2Schemas) (i : Nat) (f : FieldSpec)
    (hf : fields[i]? = some f) (_hacc : f.access = Access.RW) (o : BitOrder)
    (b v j : Nat) (hb : b < 256) (_hv : v < 2 ^ f.width)
    (hj : j < fieldOffset fields i o ∨ fieldOffset fields i o + f.width ≤ j) :
    (setBits b (fieldOffset fields i o) f.width v).testBit j = b.testBit j := by
  have hsum : (fields.map FieldSpec.width).sum = 8 := by
    simp [if2Schemas] at hmem
    rcases hmem with h | h | h | h | h | h | h | h | h <;>
      rw [h.2] <;> decide
  exact testBit_setBits_outside b _ _ v j
    (fieldOffset_add_width_le fields i f o hf hsum) hb hj

/-- C10 witness: writing 5 into the 3-bit fs_g_ois field of IF2_CTRL2_OIS
at raw byte 0xFF (Lsb build) leaves bit 4 unchanged. -/
theorem c10_setter_frame_witness :
    (setBits 0xFF (fieldOffset If2Ctrl2Ois.fields 0 .Lsb) 3 5).testBit 4 =
      Nat.testBit 0xFF 4 :=
  c10_setter_frame 0x71 If2Ctrl2Ois.fields (by decide) 0 ⟨3, .RW⟩ (by decide)
    rfl .Lsb 0xFF 5 4 (by norm_num) (by norm_num) (Or.inr (by decide))

